import Mathlib

/-!
Verification of the mortgage dashboard script
(`src/.ipynb_checkpoints/mortgage_dashboard-checkpoint.py`).

The script is shallowly embedded here.  Streamlit display calls become
values of an inductive `Msg` type collected in lists, in source order.
Python floats are modelled as rationals; Python `None` is `Option.none`;
Python exceptions are modelled by `Except`/explicit error branches that
mirror the source's `try`/`except` structure.  The network fetch outcomes
(`yfinance` ticker history, the scraped mortgage-rates page) are abstract
inputs, so that the functions can be analysed for every outcome.
-/

set_option maxRecDepth 4000

namespace MortgageDashboard

/-- One streamlit display call.  Payload-carrying constructors
(`ratesMarkdown`, `captionForecast`) model f-strings whose interpolated
values are the interesting data. -/
inductive Msg where
  | title (s : String)
  | warning (s : String)
  | errorMsg (s : String)
  | success (s : String)
  | info (s : String)
  | write (s : String)
  | subheader (s : String)
  | ratesMarkdown (actualYield mortgageRate spread : ℚ)
  | captionText (s : String)
  | captionForecast (fy : ℚ)
  deriving DecidableEq, Repr

/-! ## Message texts (from the source, emojis dropped) -/

def delayHeadText : String := "Forecasted 10Y Yield is above 5%."
def delayBodyText : String := "Mortgage rates may increase. Consider delaying unless urgent."
def stableHeadText : String := "Forecasted 10Y Yield is between 4% and 5%."
def stableBodyText : String := "Rates are stable. Lock only if timing matters."
def lockHeadText : String := "Forecasted 10Y Yield is below 4%."
def lockBodyText : String := "Consider locking or refinancing now to capture lower rates."
def elevatedText : String := "Mortgage rates are elevated due to a higher-than-normal spread."
def normalText : String := "Spread is within normal range. Mortgage pricing aligns with historical expectations."
def alertWarnText : String := "10Y Yield is projected above 5%. Mortgage rates may rise - refinancing could become less favorable."
def alertSuccessText : String := "10Y Yield is projected below 3.5%. Mortgage rates may drop - consider locking in refinancing."
def alertNeutralText : String := "Mortgage rates are expected to remain stable in the near term."
def alertPlaceholderText : String := "Forecast alerts will appear here once 10Y Treasury Yield is loaded."
def guidanceFallbackText : String := "Could not generate investment guidance."
def guidanceHeaderText : String := "Investment Guidance"
def dashboardTitleText : String := "Mortgage Rate Indicators Dashboard"

/-! ## Rounding

Python's `round(x, 2)` rounds half to even.  `round2` is that rule on
rationals: round `x * 100` to the nearest integer, ties to even, divide
back by 100. -/

/-- Round half to even, Python's `round` tie rule. -/
def roundHalfEven (x : ℚ) : ℤ :=
  if Int.fract x < 1/2 then ⌊x⌋
  else if 1/2 < Int.fract x then ⌊x⌋ + 1
  else if Even ⌊x⌋ then ⌊x⌋ else ⌊x⌋ + 1

/-- Python `round(x, 2)`. -/
def round2 (x : ℚ) : ℚ := (roundHalfEven (x * 100) : ℚ) / 100

/-! ## The three guidance tracks (source lines 106-150) -/

/-- The forecast-yield guidance `if`/`elif`/`else` chain, source lines
128-136: each branch makes two display calls. -/
def yieldGuidanceMsgs (forecasted_yield : ℚ) : List Msg :=
  if forecasted_yield > 5 then
    [Msg.errorMsg delayHeadText, Msg.write delayBodyText]
  else if forecasted_yield > 4 then
    [Msg.warning stableHeadText, Msg.write stableBodyText]
  else
    [Msg.success lockHeadText, Msg.write lockBodyText]

/-- The spread branch, source lines 144-148. -/
def spreadMsgs (current_spread : ℚ) : List Msg :=
  if current_spread > 2 then [Msg.warning elevatedText]
  else [Msg.success normalText]

/-- The historical-threshold classification of the last 10Y yield,
source lines 108-113. -/
def lastYieldAlertMsg (last_yield : ℚ) : Msg :=
  if last_yield > 5 then Msg.warning alertWarnText
  else if last_yield < 7/2 then Msg.success alertSuccessText
  else Msg.info alertNeutralText

/-! ## get_live_rates (source lines 9-18)

The body tries `tnx.history(period="1d")["Close"].iloc[-1]`.  The abstract
input is the outcome of that query: an exception, or the list of closing
values (`.iloc[-1]` raises `IndexError` on an empty series, which the
`except` clause also catches).  On any exception the function warns and
returns the pair `(None, None)`.  On success there is no `return`
statement left in the function body (the intended success `return` sits in
dead code inside `get_30yr_mortgage_rate`, lines 36-40), so the function
falls off its end and returns the bare value `None`.  The result type is
therefore `Option (Option ℚ × Option ℚ)`: `none` is the bare Python
`None`, `some (a, b)` a pair of possibly-`None` floats. -/

def get_live_rates (history : Except String (List ℚ)) :
    Option (Option ℚ × Option ℚ) :=
  match history with
  | .error _ => some (none, none)
  | .ok closes =>
    match closes.getLast? with
    | none => some (none, none)
    | some _ => none

/-! ## The investment-guidance block (source lines 117-154)

A single `try` covers: `forecasted_yield = forecast_window[...].iloc[-1]`
(line 119, raises on an empty window), the tuple unpacking of
`get_live_rates()` (line 122, raises `TypeError` when the callee returned
the bare `None`), the spread `round(actual_mortgage_rate -
actual_10Y_yield, 2)` (line 123, raises `TypeError` when either operand
is `None`), and only then the display calls (lines 125-150).  The
`except` clause replaces everything with the fallback warning plus the
raw error text.  Every raise point precedes the first display call, so
the output is either the full success list or exactly the two fallback
messages. -/

def indexErrText : String := "single positional indexer is out-of-bounds"
def unpackErrText : String := "cannot unpack non-iterable NoneType object"
def noneSubErrText : String := "unsupported operand type(s) for -: NoneType and NoneType"

/-- The two messages of the `except` clause, lines 153-154. -/
def fallbackMsgs (e : String) : List Msg :=
  [Msg.warning guidanceFallbackText, Msg.captionText e]

/-- The display calls of the success path, lines 125-150, in source
order. -/
def successMsgs (forecasted_yield actual_10Y_yield actual_mortgage_rate : ℚ) : List Msg :=
  Msg.subheader guidanceHeaderText ::
    (yieldGuidanceMsgs forecasted_yield ++
      [Msg.ratesMarkdown actual_10Y_yield actual_mortgage_rate
        (round2 (actual_mortgage_rate - actual_10Y_yield))] ++
      spreadMsgs (round2 (actual_mortgage_rate - actual_10Y_yield)) ++
      [Msg.captionForecast forecasted_yield])

/-- The whole guidance block.  `forecast_window` is the filtered
10Y-yield column; `live` is the value `get_live_rates()` returned. -/
def guidanceBlock (forecast_window : List ℚ)
    (live : Option (Option ℚ × Option ℚ)) : List Msg :=
  match forecast_window.getLast? with
  | none => fallbackMsgs indexErrText
  | some forecasted_yield =>
    match live with
    | none => fallbackMsgs unpackErrText
    | some (actualYield?, actualRate?) =>
      match actualYield?, actualRate? with
      | some ay, some mr => successMsgs forecasted_yield ay mr
      | _, _ => fallbackMsgs noneSubErrText

/-! ## The dataset and the forecast-alert block (source lines 43-64, 106-115) -/

/-- One row of the loaded CSV: the `Date` column (an ordinal) and the
`10Y_Treasury_Yield` column. -/
structure DataRow where
  date : ℤ
  treasuryYield10 : ℚ
  deriving DecidableEq, Repr

/-- Source lines 61-64: keep the rows whose `Date` lies in the selected
range, inclusive on both ends. -/
def filtered_data (data : List DataRow) (lo hi : ℤ) : List DataRow :=
  data.filter (fun r => decide (lo ≤ r.date) && decide (r.date ≤ hi))

/-- Source line 107: `data[data.Date == data.Date.max()][col].values[0]` -
the yield of the first row carrying the maximal date; `none` models the
`IndexError`/`KeyError` cases the bare `except` catches. -/
def last_yield (data : List DataRow) : Option ℚ :=
  match (data.map DataRow.date).max? with
  | none => none
  | some m =>
    ((data.filter (fun r => decide (r.date = m))).map DataRow.treasuryYield10).head?

/-- The forecast-alert `try`/`except` block, lines 106-115. -/
def alertBlock (data : List DataRow) : List Msg :=
  match last_yield data with
  | none => [Msg.info alertPlaceholderText]
  | some ly => [lastYieldAlertMsg ly]

/-! ## Character-level text utilities

Python `str` values are modelled as `List Char`. -/

/-- Join pieces with a separator character (comma for CSV fields,
newline for CSV records, the dot for float parsing). -/
def joinSep (sep : Char) : List (List Char) → List Char
  | [] => []
  | [p] => p
  | p :: q :: rest => p ++ sep :: joinSep sep (q :: rest)

/-- Split at every occurrence of the separator; inverse of `joinSep` on
separator-free pieces. -/
def splitSep (sep : Char) : List Char → List (List Char)
  | [] => [[]]
  | c :: cs =>
    if c = sep then [] :: splitSep sep cs
    else
      match splitSep sep cs with
      | [] => [[c]]
      | p :: ps => (c :: p) :: ps

/-- Python `str.strip()`: drop leading and trailing whitespace. -/
def stripChars (cs : List Char) : List Char :=
  ((cs.dropWhile Char.isWhitespace).reverse.dropWhile Char.isWhitespace).reverse

/-- Python `str.replace("%", "")`: drop every percent sign. -/
def removePercent (cs : List Char) : List Char :=
  cs.filter (fun c => !(c = '%' : Bool))

/-- The decimal digit character for a value below ten. -/
def digitChar (n : ℕ) : Char :=
  if n = 0 then '0' else if n = 1 then '1' else if n = 2 then '2'
  else if n = 3 then '3' else if n = 4 then '4' else if n = 5 then '5'
  else if n = 6 then '6' else if n = 7 then '7' else if n = 8 then '8'
  else '9'

/-- The numeric value of a decimal digit character. -/
def digitVal (c : Char) : Option ℕ :=
  if c = '0' then some 0 else if c = '1' then some 1 else if c = '2' then some 2
  else if c = '3' then some 3 else if c = '4' then some 4 else if c = '5' then some 5
  else if c = '6' then some 6 else if c = '7' then some 7 else if c = '8' then some 8
  else if c = '9' then some 9 else none

/-- Value of a (possibly empty) string of decimal digits, most
significant first; `none` if any character is not a digit. -/
def digitsVal : List Char → Option ℕ
  | [] => some 0
  | c :: cs =>
    match digitVal c, digitsVal cs with
    | some d, some v => some (d * 10 ^ cs.length + v)
    | _, _ => none

/-- Python `float(s)` on an unsigned body: digits with at most one dot,
at least one digit overall (exponents and the named specials are outside
the inputs this program meets and are not modelled). -/
def parseFloatUnsigned (cs : List Char) : Option ℚ :=
  match splitSep '.' cs with
  | [ip] =>
    if ip.isEmpty then none
    else (digitsVal ip).map (fun n : ℕ => (n : ℚ))
  | [ip, fp] =>
    if ip.isEmpty && fp.isEmpty then none
    else (digitsVal (ip ++ fp)).map (fun n : ℕ => (n : ℚ) / 10 ^ fp.length)
  | _ => none

/-- Python `float(s)`: optional sign, then an unsigned decimal body.
`none` models the `ValueError` the caller catches. -/
def parseFloat (cs : List Char) : Option ℚ :=
  match cs with
  | [] => none
  | c :: rest =>
    if c = '-' then (parseFloatUnsigned rest).map Neg.neg
    else if c = '+' then parseFloatUnsigned rest
    else parseFloatUnsigned (c :: rest)

/-! ## get_30yr_mortgage_rate (source lines 20-41)

The abstract input is the joint outcome of the HTTP GET and the two
BeautifulSoup lookups: the GET may raise; otherwise
`soup.find("span", string="30-year fixed")` finds the label span or not
(`find_next` on `None` raises `AttributeError`); if found, `find_next("span")`
yields the adjacent span or not (`.text` on `None` raises); if present, the
adjacent span's text is an arbitrary string.  The body then strips
whitespace, removes percent signs and calls `float`, whose failure raises
`ValueError`.  The bare `except Exception` turns every raise into
`return None`.  Lines 36-40 sit after that `return` and never execute. -/

inductive FetchOutcome where
  | httpError (e : String)
  | page (labelSpan : Option (Option (List Char)))
  deriving DecidableEq

/-- The `try` body of `get_30yr_mortgage_rate` with its raise points
explicit. -/
def scrapeBody (o : FetchOutcome) : Except String ℚ :=
  match o with
  | .httpError e => .error e
  | .page none => .error "AttributeError on NoneType: find_next"
  | .page (some none) => .error "AttributeError on NoneType: text"
  | .page (some (some txt)) =>
    match parseFloat (removePercent (stripChars txt)) with
    | none => .error "ValueError: could not convert string to float"
    | some q => .ok q

/-- The whole function: the catch-all `except` maps every raise to
`None`. -/
def get_30yr_mortgage_rate (o : FetchOutcome) : Option ℚ :=
  match scrapeBody o with
  | .ok q => some q
  | .error _ => none

/-! ## The displayed dashboard output

The module-level script, restricted to display calls that carry guidance
text: the title (line 51), the forecast-alert block (lines 106-115) and
the investment-guidance block (lines 117-154).  `pageOutcome` is the
content-dependent outcome the mortgage-rates page scrape would produce;
no executed line of the script calls `get_30yr_mortgage_rate` (its only
textual occurrence outside its definition is in dead code, line 40, and
even there it is referenced, not called), so the parameter feeds
nothing. -/

def dashboard (data : List DataRow) (lo hi : ℤ)
    (live : Option (Option ℚ × Option ℚ)) (pageOutcome : FetchOutcome) : List Msg :=
  Msg.title dashboardTitleText ::
    (alertBlock data ++
      guidanceBlock ((filtered_data data lo hi).map DataRow.treasuryYield10) live)

/-! ## CSV export and re-parse (source lines 61-64 and 96-103)

`filtered_data.to_csv(index=False)` writes a header line, then one line
per row in order, fields comma-separated, each line ending in a newline;
re-reading parses lines back into rows.  Rows are modelled with the date
as an ordinal and the indicator columns as scaled integers, both printed
in decimal. -/

/-- Decimal digits of `n`, most significant first, accumulated onto
`acc`; the first argument is fuel (`n` itself suffices). -/
def natCharsAux : ℕ → ℕ → List Char → List Char
  | 0, _, acc => acc
  | fuel + 1, n, acc =>
    if n = 0 then acc
    else natCharsAux fuel (n / 10) (digitChar (n % 10) :: acc)

/-- Decimal representation of a natural number. -/
def natChars (n : ℕ) : List Char :=
  if n = 0 then ['0'] else natCharsAux n n []

/-- Parse a non-empty all-digit string. -/
def parseNatChars (cs : List Char) : Option ℕ :=
  if cs.isEmpty then none else digitsVal cs

/-- Decimal representation of an integer. -/
def intChars (i : ℤ) : List Char :=
  if i < 0 then '-' :: natChars i.natAbs else natChars i.natAbs

/-- Parse an optionally negated decimal integer. -/
def parseIntChars (cs : List Char) : Option ℤ :=
  match cs with
  | [] => none
  | c :: rest =>
    if c = '-' then (parseNatChars rest).map (fun n : ℕ => -(n : ℤ))
    else (parseNatChars (c :: rest)).map (fun n : ℕ => (n : ℤ))

/-- One exported row: the `Date` ordinal and the numeric indicator
columns. -/
structure CsvRow where
  date : ℕ
  vals : List ℤ
  deriving DecidableEq, Repr

/-- One CSV record: fields comma-separated. -/
def rowChars (r : CsvRow) : List Char :=
  joinSep ',' (natChars r.date :: r.vals.map intChars)

/-- Parse one CSV record. -/
def parseRowChars (cs : List Char) : Option CsvRow :=
  match splitSep ',' cs with
  | [] => none
  | d :: vs =>
    match parseNatChars d, vs.mapM parseIntChars with
    | some dn, some vi => some ⟨dn, vi⟩
    | _, _ => none

/-- `to_csv(index=False)`: header line, then the records, newline after
every line. -/
def toCsv (header : List Char) (rows : List CsvRow) : List Char :=
  joinSep '\x0a' (header :: rows.map rowChars) ++ ['\x0a']

/-- Drop the empty piece a trailing final newline produces. -/
def dropTrailingEmpty (ls : List (List Char)) : List (List Char) :=
  if ls.getLast? = some [] then ls.dropLast else ls

/-- Re-parse: split into lines, drop the trailing empty line, skip the
header, parse every record. -/
def parseCsv (cs : List Char) : Option (List CsvRow) :=
  match dropTrailingEmpty (splitSep '\x0a' cs) with
  | [] => none
  | _header :: body => body.mapM parseRowChars

/-- The date-range filter of source lines 61-64 on exported rows,
inclusive on both ends. -/
def filterRows (rows : List CsvRow) (lo hi : ℕ) : List CsvRow :=
  rows.filter (fun r => decide (lo ≤ r.date) && decide (r.date ≤ hi))

/-! ## Helper lemmas: splitting and joining -/

lemma splitSep_ne_nil (sep : Char) (cs : List Char) : splitSep sep cs ≠ [] := by
  induction cs with
  | nil => simp [splitSep]
  | cons c cs ih =>
    by_cases h : c = sep
    · simp [splitSep, h]
    · rw [splitSep, if_neg h]
      cases hs : splitSep sep cs <;> simp

lemma splitSep_cons_of_ne (sep c : Char) (cs : List Char) (h : c ≠ sep)
    (p : List Char) (ps : List (List Char)) (hs : splitSep sep cs = p :: ps) :
    splitSep sep (c :: cs) = (c :: p) :: ps := by
  rw [splitSep, if_neg h, hs]

lemma splitSep_eq_single (sep : Char) (cs : List Char) (h : sep ∉ cs) :
    splitSep sep cs = [cs] := by
  induction cs with
  | nil => rfl
  | cons c cs ih =>
    have hc : c ≠ sep := fun hcs => h (hcs ▸ List.mem_cons_self c cs)
    have hrec := ih (fun hm => h (List.mem_cons_of_mem _ hm))
    exact splitSep_cons_of_ne sep c cs hc cs [] hrec

lemma splitSep_append (sep : Char) (x t : List Char) (hx : sep ∉ x) :
    splitSep sep (x ++ sep :: t) = x :: splitSep sep t := by
  induction x with
  | nil => simp [splitSep]
  | cons c x ih =>
    have hc : c ≠ sep := fun hcs => hx (hcs ▸ List.mem_cons_self c x)
    have hrec := ih (fun hm => hx (List.mem_cons_of_mem _ hm))
    exact splitSep_cons_of_ne sep c _ hc x (splitSep sep t) hrec

lemma splitSep_joinSep (sep : Char) :
    ∀ ps : List (List Char), ps ≠ [] → (∀ p ∈ ps, sep ∉ p) →
      splitSep sep (joinSep sep ps) = ps
  | [], hne, _ => absurd rfl hne
  | [p], _, hall => by
    simpa [joinSep] using splitSep_eq_single sep p (hall p (List.mem_singleton.mpr rfl))
  | p :: q :: qs, _, hall => by
    have h1 : sep ∉ p := hall p (List.mem_cons_self p _)
    have hrec := splitSep_joinSep sep (q :: qs) (List.cons_ne_nil q qs)
      (fun r hr => hall r (List.mem_cons_of_mem _ hr))
    calc splitSep sep (joinSep sep (p :: q :: qs))
        = splitSep sep (p ++ sep :: joinSep sep (q :: qs)) := rfl
      _ = p :: splitSep sep (joinSep sep (q :: qs)) := splitSep_append sep p _ h1
      _ = p :: q :: qs := by rw [hrec]

lemma splitSep_concat_sep (sep : Char) (l : List Char) :
    splitSep sep (l ++ [sep]) = splitSep sep l ++ [[]] := by
  induction l with
  | nil => simp [splitSep]
  | cons c l ih =>
    by_cases h : c = sep
    · subst h
      rw [List.cons_append, splitSep, if_pos rfl, ih, splitSep, if_pos rfl]
      rfl
    · obtain ⟨p, ps, hps⟩ : ∃ p ps, splitSep sep l = p :: ps := by
        cases hs : splitSep sep l with
        | nil => exact absurd hs (splitSep_ne_nil sep l)
        | cons p ps => exact ⟨p, ps, rfl⟩
      have h1 : splitSep sep (l ++ [sep]) = p :: (ps ++ [[]]) := by
        rw [ih, hps]; rfl
      have h2 := splitSep_cons_of_ne sep c l h p ps hps
      rw [List.cons_append, splitSep_cons_of_ne sep c _ h p (ps ++ [[]]) h1, h2]
      rfl

lemma mem_joinSep (sep : Char) :
    ∀ (ps : List (List Char)) (c : Char), c ∈ joinSep sep ps →
      c = sep ∨ ∃ p ∈ ps, c ∈ p
  | [], c, h => absurd h (List.not_mem_nil c)
  | [p], c, h => Or.inr ⟨p, List.mem_singleton.mpr rfl, h⟩
  | p :: q :: qs, c, h => by
    rcases List.mem_append.mp (h : c ∈ p ++ sep :: joinSep sep (q :: qs)) with h1 | h2
    · exact Or.inr ⟨p, List.mem_cons_self p _, h1⟩
    · rcases List.mem_cons.mp h2 with h3 | h4
      · exact Or.inl h3
      · rcases mem_joinSep sep (q :: qs) c h4 with h5 | ⟨r, hr, hcr⟩
        · exact Or.inl h5
        · exact Or.inr ⟨r, List.mem_cons_of_mem _ hr, hcr⟩

/-! ## Helper lemmas: decimal printing and parsing -/

lemma digitVal_digitChar (d : ℕ) (h : d < 10) : digitVal (digitChar d) = some d := by
  interval_cases d <;> decide

lemma digitChar_ne_special (d : ℕ) (h : d < 10) :
    digitChar d ≠ '-' ∧ digitChar d ≠ ',' ∧ digitChar d ≠ '\x0a' := by
  interval_cases d <;> exact ⟨by decide, by decide, by decide⟩

lemma digitsVal_append_digit (d : ℕ) (hd : d < 10) :
    ∀ cs : List Char, digitsVal (cs ++ [digitChar d]) =
      (digitsVal cs).map (fun v => v * 10 + d)
  | [] => by simp [digitsVal, digitVal_digitChar d hd]
  | c :: cs => by
    rw [List.cons_append, digitsVal, digitsVal_append_digit d hd cs, digitsVal]
    cases hdc : digitVal c with
    | none => rfl
    | some x =>
      cases hv : digitsVal cs with
      | none => rfl
      | some v =>
        simp only [Option.map_some', List.length_append, List.length_cons,
          List.length_nil, Option.some.injEq]
        ring

lemma digitsVal_rev_map (L : List ℕ) (hL : ∀ d ∈ L, d < 10) :
    digitsVal ((L.map digitChar).reverse) = some (Nat.ofDigits 10 L) := by
  induction L with
  | nil => simp [digitsVal, Nat.ofDigits]
  | cons d L ih =>
    have hd : d < 10 := hL d (List.mem_cons_self d L)
    rw [List.map_cons, List.reverse_cons,
      digitsVal_append_digit d hd, ih (fun x hx => hL x (List.mem_cons_of_mem _ hx)),
      Nat.ofDigits_cons]
    simp only [Option.map_some', Option.some.injEq]
    ring

lemma natCharsAux_eq (fuel : ℕ) : ∀ n acc, n ≤ fuel →
    natCharsAux fuel n acc = ((Nat.digits 10 n).map digitChar).reverse ++ acc := by
  induction fuel with
  | zero =>
    intro n acc h
    have : n = 0 := Nat.le_zero.mp h
    subst this
    simp [natCharsAux]
  | succ fuel ih =>
    intro n acc h
    by_cases h0 : n = 0
    · subst h0; simp [natCharsAux]
    · have hd : Nat.digits 10 n = n % 10 :: Nat.digits 10 (n / 10) :=
        Nat.digits_def' (by norm_num) (Nat.pos_of_ne_zero h0)
      have hle : n / 10 ≤ fuel := by
        have : n / 10 < n := Nat.div_lt_self (Nat.pos_of_ne_zero h0) (by norm_num)
        omega
      rw [natCharsAux, if_neg h0, ih (n / 10) (digitChar (n % 10) :: acc) hle, hd]
      simp

lemma natChars_eq (n : ℕ) (h0 : n ≠ 0) :
    natChars n = ((Nat.digits 10 n).map digitChar).reverse := by
  rw [natChars, if_neg h0, natCharsAux_eq n n [] le_rfl, List.append_nil]

lemma natChars_all_digit (n : ℕ) (c : Char) (hc : c ∈ natChars n) :
    ∃ d, d < 10 ∧ c = digitChar d := by
  by_cases h0 : n = 0
  · subst h0
    refine ⟨0, by norm_num, ?_⟩
    simpa [natChars] using hc
  · rw [natChars_eq n h0, List.mem_reverse] at hc
    obtain ⟨d, hd, rfl⟩ := List.mem_map.mp hc
    exact ⟨d, Nat.digits_lt_base (by norm_num) hd, rfl⟩

lemma natChars_ne_nil (n : ℕ) : natChars n ≠ [] := by
  by_cases h0 : n = 0
  · subst h0; simp [natChars]
  · rw [natChars_eq n h0]
    simp [Nat.digits_ne_nil_iff_ne_zero.mpr h0]

lemma parseNatChars_natChars (n : ℕ) : parseNatChars (natChars n) = some n := by
  by_cases h0 : n = 0
  · subst h0; decide
  · have hne := natChars_ne_nil n
    rw [parseNatChars, if_neg (by simpa [List.isEmpty_iff] using hne), natChars_eq n h0,
      digitsVal_rev_map _ (fun d hd => Nat.digits_lt_base (by norm_num) hd),
      Nat.ofDigits_digits]

lemma parseIntChars_intChars (i : ℤ) : parseIntChars (intChars i) = some i := by
  by_cases hi : i < 0
  · rw [intChars, if_pos hi, parseIntChars, if_pos rfl, parseNatChars_natChars]
    simp only [Option.map_some', Option.some.injEq]
    omega
  · rw [intChars, if_neg hi]
    obtain ⟨c, cs, hcc⟩ := List.exists_cons_of_ne_nil (natChars_ne_nil i.natAbs)
    obtain ⟨d, hd10, hcd⟩ := natChars_all_digit i.natAbs c (hcc ▸ List.mem_cons_self c cs)
    have hcne : c ≠ '-' := hcd ▸ (digitChar_ne_special d hd10).1
    rw [hcc, parseIntChars, if_neg hcne, ← hcc, parseNatChars_natChars]
    simp only [Option.map_some', Option.some.injEq]
    omega

/-! ## Helper lemmas: CSV round trip -/

lemma intChars_chars (i : ℤ) (c : Char) (hc : c ∈ intChars i) :
    c = '-' ∨ ∃ d, d < 10 ∧ c = digitChar d := by
  rw [intChars] at hc
  split_ifs at hc with h
  · rcases List.mem_cons.mp hc with rfl | hc'
    · exact Or.inl rfl
    · exact Or.inr (natChars_all_digit _ _ hc')
  · exact Or.inr (natChars_all_digit _ _ hc)

lemma intChars_no_sep (i : ℤ) (c : Char) (hc : c ∈ intChars i) :
    c ≠ ',' ∧ c ≠ '\x0a' := by
  rcases intChars_chars i c hc with rfl | ⟨d, hd, rfl⟩
  · exact ⟨by decide, by decide⟩
  · exact ⟨(digitChar_ne_special d hd).2.1, (digitChar_ne_special d hd).2.2⟩

lemma mapM_parseInt_map : ∀ l : List ℤ, (l.map intChars).mapM parseIntChars = some l
  | [] => rfl
  | i :: is => by
    rw [List.map_cons, List.mapM_cons, parseIntChars_intChars, mapM_parseInt_map is]
    rfl

lemma parseRowChars_rowChars (r : CsvRow) : parseRowChars (rowChars r) = some r := by
  have hsplit : splitSep ',' (rowChars r) = natChars r.date :: r.vals.map intChars := by
    apply splitSep_joinSep
    · exact List.cons_ne_nil _ _
    · intro p hp hmem
      rcases List.mem_cons.mp hp with rfl | hp'
      · obtain ⟨x, hx10, hcx⟩ := natChars_all_digit r.date _ hmem
        exact (digitChar_ne_special x hx10).2.1 hcx.symm
      · obtain ⟨i, hi, rfl⟩ := List.mem_map.mp hp'
        exact (intChars_no_sep i _ hmem).1 rfl
  rw [parseRowChars, hsplit]
  simp only [parseNatChars_natChars, mapM_parseInt_map]

lemma mapM_parseRow_map : ∀ rs : List CsvRow, (rs.map rowChars).mapM parseRowChars = some rs
  | [] => rfl
  | r :: rs => by
    rw [List.map_cons, List.mapM_cons, parseRowChars_rowChars, mapM_parseRow_map rs]
    rfl

lemma rowChars_no_newline (r : CsvRow) : '\x0a' ∉ rowChars r := by
  intro hmem
  rcases mem_joinSep ',' _ _ hmem with h | ⟨p, hp, hcp⟩
  · exact absurd h (by decide)
  · rcases List.mem_cons.mp hp with rfl | hp'
    · obtain ⟨x, hx10, hcx⟩ := natChars_all_digit r.date _ hcp
      exact (digitChar_ne_special x hx10).2.2 hcx.symm
    · obtain ⟨i, hi, rfl⟩ := List.mem_map.mp hp'
      exact (intChars_no_sep i _ hcp).2 rfl

lemma dropTrailingEmpty_concat (ls : List (List Char)) :
    dropTrailingEmpty (ls ++ [[]]) = ls := by
  rw [dropTrailingEmpty, if_pos (by rw [List.getLast?_concat]), List.dropLast_concat]

lemma parseCsv_toCsv (header : List Char) (hh : '\x0a' ∉ header) (rows : List CsvRow) :
    parseCsv (toCsv header rows) = some rows := by
  have hall : ∀ p ∈ header :: rows.map rowChars, '\x0a' ∉ p := by
    intro p hp
    rcases List.mem_cons.mp hp with rfl | hp'
    · exact hh
    · obtain ⟨r, hr, rfl⟩ := List.mem_map.mp hp'
      exact rowChars_no_newline r
  have hsplit : splitSep '\x0a' (toCsv header rows) =
      (header :: rows.map rowChars) ++ [[]] := by
    rw [toCsv, splitSep_concat_sep, splitSep_joinSep '\x0a' _ (List.cons_ne_nil _ _) hall]
  rw [parseCsv, hsplit, dropTrailingEmpty_concat]
  exact mapM_parseRow_map rows

/-! ## Claim C1 -/

/-- C1: the forecast-yield guidance track selects the "delay" message
exactly when `forecasted_yield > 5.0`, the "stable" message exactly on
`(4.0, 5.0]`, and the "lock now" message exactly on `(-inf, 4.0]`; the
boundary inputs 4.0 and 5.0 resolve to "lock now" and "stable"
respectively, and the three bands are mutually exclusive and
exhaustive. -/
theorem forecast_guidance_bands (fy : ℚ) :
    (yieldGuidanceMsgs fy = [Msg.errorMsg delayHeadText, Msg.write delayBodyText] ↔ 5 < fy) ∧
    (yieldGuidanceMsgs fy = [Msg.warning stableHeadText, Msg.write stableBodyText] ↔
      4 < fy ∧ fy ≤ 5) ∧
    (yieldGuidanceMsgs fy = [Msg.success lockHeadText, Msg.write lockBodyText] ↔ fy ≤ 4) ∧
    yieldGuidanceMsgs 4 = [Msg.success lockHeadText, Msg.write lockBodyText] ∧
    yieldGuidanceMsgs 5 = [Msg.warning stableHeadText, Msg.write stableBodyText] ∧
    ((5 < fy ∧ ¬(4 < fy ∧ fy ≤ 5) ∧ ¬fy ≤ 4) ∨
     (¬5 < fy ∧ (4 < fy ∧ fy ≤ 5) ∧ ¬fy ≤ 4) ∨
     (¬5 < fy ∧ ¬(4 < fy ∧ fy ≤ 5) ∧ fy ≤ 4)) := by
  refine ⟨?_, ?_, ?_, ?_, ?_, ?_⟩
  · unfold yieldGuidanceMsgs
    split_ifs with h1 h2
    · simp [h1]
    · constructor
      · intro h; simp at h
      · intro h; exact absurd h h1
    · constructor
      · intro h; simp at h
      · intro h; exact absurd h h1
  · unfold yieldGuidanceMsgs
    split_ifs with h1 h2
    · constructor
      · intro h; simp at h
      · rintro ⟨-, h5⟩; linarith
    · simpa using ⟨h2, le_of_not_lt h1⟩
    · constructor
      · intro h; simp at h
      · rintro ⟨h4, -⟩; exact absurd h4 h2
  · unfold yieldGuidanceMsgs
    split_ifs with h1 h2
    · constructor
      · intro h; simp at h
      · intro h; linarith
    · constructor
      · intro h; simp at h
      · intro h; linarith
    · simpa using le_of_not_lt h2
  · unfold yieldGuidanceMsgs; norm_num
  · unfold yieldGuidanceMsgs; norm_num
  · rcases lt_trichotomy fy 4 with h | h | h
    · exact Or.inr (Or.inr ⟨by linarith, by simp [not_and]; intro hc; linarith, h.le⟩)
    · exact Or.inr (Or.inr ⟨by linarith, by simp [not_and]; intro hc; linarith, h.le⟩)
    · rcases le_or_lt fy 5 with h5 | h5
      · exact Or.inr (Or.inl ⟨not_lt.mpr h5, ⟨h, h5⟩, not_le.mpr h⟩)
      · exact Or.inl ⟨h5, by simp [not_and]; intro hc; linarith, by intro hc; linarith⟩

/-! ## Claim C2 -/

/-- C2: evaluation of `get_live_rates` at a successful fetch (non-empty
close series `[4.5]`): the function returns the bare `None`, not a pair
whose benchmark component is the most recent close; the failure half of
the claim does hold (on an exception it returns the absent pair). -/
theorem get_live_rates_success_not_pair :
    get_live_rates (Except.ok [(9 : ℚ) / 2]) = none ∧
    get_live_rates (Except.error "network unreachable") = some (none, none) :=
  ⟨rfl, rfl⟩

/-! ## Claim C3 -/

/-- C3 counterexample: with forecasted yield 6 (which the forecast-yield
track would classify as "delay") and the live-rate pair absent (a failure
affecting only the spread track's inputs), the guidance block shows only
the fallback pair and the forecast-yield "delay" message is suppressed -
so the tracks are not independent as claimed. -/
theorem track_failure_suppression_cex :
    (5 : ℚ) < 6 ∧
    guidanceBlock [6] (some (none, none)) = fallbackMsgs noneSubErrText ∧
    Msg.errorMsg delayHeadText ∉ guidanceBlock [6] (some (none, none)) := by
  refine ⟨by norm_num, rfl, ?_⟩
  have h : guidanceBlock [6] (some (none, none)) = fallbackMsgs noneSubErrText := rfl
  rw [h]
  decide

/-- C3 amended: the historical-threshold track is evaluated in its own
exception scope and its displayed prefix of the dashboard output is
unaffected by the live-rate outcome and by the scraped page; but the
forecast-yield and spread tracks share one scope in which the live-rate
unpacking and the spread computation precede every display call, so an
absent live-rate value suppresses the forecast-yield message along with
the spread message. -/
theorem track_independence_amended (data : List DataRow) (lo hi : ℤ)
    (live live' : Option (Option ℚ × Option ℚ)) (p p' : FetchOutcome) :
    (dashboard data lo hi live p).take (1 + (alertBlock data).length) =
      (dashboard data lo hi live' p').take (1 + (alertBlock data).length) ∧
    (∀ (fw : List ℚ) (fy : ℚ), fw.getLast? = some fy →
      ∀ a b : Option ℚ, (a = none ∨ b = none) →
        guidanceBlock fw (some (a, b)) = fallbackMsgs noneSubErrText) := by
  constructor
  · simp only [dashboard]
    rw [Nat.add_comm 1 ((alertBlock data).length)]
    rw [List.take_succ_cons, List.take_succ_cons, List.take_left, List.take_left]
  · intro fw fy hfw a b hab
    rcases hab with rfl | rfl
    · cases b <;> simp [guidanceBlock, hfw]
    · cases a <;> simp [guidanceBlock, hfw]

/-- Witness for the amended C3 at concrete inputs. -/
theorem track_independence_amended_witness :
    (dashboard [⟨0, 6⟩] 0 0 none (FetchOutcome.page none)).take
        (1 + (alertBlock [⟨0, 6⟩]).length) =
      (dashboard [⟨0, 6⟩] 0 0 (some (none, none)) (FetchOutcome.httpError "e")).take
        (1 + (alertBlock [⟨0, 6⟩]).length) ∧
    guidanceBlock [6] (some (none, none)) = fallbackMsgs noneSubErrText :=
  ⟨(track_independence_amended [⟨0, 6⟩] 0 0 none (some (none, none))
      (FetchOutcome.page none) (FetchOutcome.httpError "e")).1,
    (track_independence_amended [⟨0, 6⟩] 0 0 none (some (none, none))
      (FetchOutcome.page none) (FetchOutcome.httpError "e")).2 [6] 6 rfl none none
      (Or.inl rfl)⟩

/-! ## Claim C4 -/

lemma roundHalfEven_intCast (z : ℤ) : roundHalfEven (z : ℚ) = z := by
  rw [roundHalfEven, Int.fract_intCast]
  norm_num [Int.floor_intCast]

/-- C4: when both live values are present the guidance block shows the
success list, whose spread component is `round2 (rate - yield)`; the
"elevated risk premium" message is selected exactly when the rounded
spread exceeds 2.0, otherwise the "normal range" message; and the
claim's two concrete examples evaluate as stated: (6.92, 4.50) gives
spread 2.42 and the elevated message, (6.00, 4.50) gives spread 1.50 and
the normal message. -/
theorem spread_guidance (actualYield actualRate : ℚ) (fw : List ℚ) (fy : ℚ)
    (hfw : fw.getLast? = some fy) :
    guidanceBlock fw (some (some actualYield, some actualRate)) =
      successMsgs fy actualYield actualRate ∧
    (spreadMsgs (round2 (actualRate - actualYield)) = [Msg.warning elevatedText] ↔
      2 < round2 (actualRate - actualYield)) ∧
    (spreadMsgs (round2 (actualRate - actualYield)) = [Msg.success normalText] ↔
      round2 (actualRate - actualYield) ≤ 2) ∧
    round2 ((692 : ℚ) / 100 - 450 / 100) = 242 / 100 ∧
    spreadMsgs (round2 ((692 : ℚ) / 100 - 450 / 100)) = [Msg.warning elevatedText] ∧
    round2 ((600 : ℚ) / 100 - 450 / 100) = 150 / 100 ∧
    spreadMsgs (round2 ((600 : ℚ) / 100 - 450 / 100)) = [Msg.success normalText] := by
  have h242 : round2 ((692 : ℚ) / 100 - 450 / 100) = 242 / 100 := by
    have h : ((692 : ℚ) / 100 - 450 / 100) * 100 = ((242 : ℤ) : ℚ) := by norm_num
    rw [round2, h, roundHalfEven_intCast]
    norm_num
  have h150 : round2 ((600 : ℚ) / 100 - 450 / 100) = 150 / 100 := by
    have h : ((600 : ℚ) / 100 - 450 / 100) * 100 = ((150 : ℤ) : ℚ) := by norm_num
    rw [round2, h, roundHalfEven_intCast]
    norm_num
  refine ⟨by simp only [guidanceBlock, hfw], ?_, ?_, h242, ?_, h150, ?_⟩
  · rw [spreadMsgs]
    split_ifs with h1
    · simp [h1]
    · constructor
      · intro hx; simp at hx
      · intro hx; exact absurd hx h1
  · rw [spreadMsgs]
    split_ifs with h1
    · constructor
      · intro hx; simp at hx
      · intro hx; exact absurd h1 (not_lt.mpr hx)
    · simpa using le_of_not_lt h1
  · rw [h242, spreadMsgs, if_pos (by norm_num : ((242 : ℚ) / 100) > 2)]
  · rw [h150, spreadMsgs, if_neg (by norm_num : ¬((150 : ℚ) / 100) > 2)]

/-- Witness for C4 at concrete inputs. -/
theorem spread_guidance_witness :
    (([6] : List ℚ).getLast? = some 6) ∧
    guidanceBlock [6] (some (some ((450 : ℚ) / 100), some ((692 : ℚ) / 100))) =
      successMsgs 6 ((450 : ℚ) / 100) ((692 : ℚ) / 100) :=
  ⟨rfl, (spread_guidance ((450 : ℚ) / 100) ((692 : ℚ) / 100) [6] 6 rfl).1⟩

/-! ## Claim C5 -/

/-- C5: for a dataset whose most recent row carries yield `ly`, the
historical-threshold track warns exactly when `ly > 5.0`, shows the
success message exactly when `ly < 3.5`, and the neutral message exactly
on `[3.5, 5.0]`; the classification at the claim's sample values 5.5,
3.0 and 4.0 is warning, success and neutral respectively. -/
theorem historical_threshold_bands (data : List DataRow) (ly : ℚ)
    (h : last_yield data = some ly) :
    (alertBlock data = [Msg.warning alertWarnText] ↔ 5 < ly) ∧
    (alertBlock data = [Msg.success alertSuccessText] ↔ ly < 7 / 2) ∧
    (alertBlock data = [Msg.info alertNeutralText] ↔ 7 / 2 ≤ ly ∧ ly ≤ 5) ∧
    lastYieldAlertMsg ((11 : ℚ) / 2) = Msg.warning alertWarnText ∧
    lastYieldAlertMsg 3 = Msg.success alertSuccessText ∧
    lastYieldAlertMsg 4 = Msg.info alertNeutralText := by
  have hab : alertBlock data = [lastYieldAlertMsg ly] := by
    simp only [alertBlock, h]
  refine ⟨?_, ?_, ?_, ?_, ?_, ?_⟩
  · rw [hab, lastYieldAlertMsg]
    split_ifs with h1 h2
    · simp [h1]
    · constructor
      · intro hx; simp at hx
      · intro hx; exact absurd hx h1
    · constructor
      · intro hx; simp at hx
      · intro hx; exact absurd hx h1
  · rw [hab, lastYieldAlertMsg]
    split_ifs with h1 h2
    · constructor
      · intro hx; simp at hx
      · intro hx; linarith
    · simp [h2]
    · constructor
      · intro hx; simp at hx
      · intro hx; exact absurd hx h2
  · rw [hab, lastYieldAlertMsg]
    split_ifs with h1 h2
    · constructor
      · intro hx; simp at hx
      · rintro ⟨-, h5⟩; exact absurd h1 (not_lt.mpr h5)
    · constructor
      · intro hx; simp at hx
      · rintro ⟨h35, -⟩; exact absurd h2 (not_lt.mpr h35)
    · simpa using ⟨le_of_not_lt h2, le_of_not_lt h1⟩
  · norm_num [lastYieldAlertMsg]
  · norm_num [lastYieldAlertMsg]
  · norm_num [lastYieldAlertMsg]

/-- Witness for C5 at a concrete one-row dataset with last yield 5.5. -/
theorem historical_threshold_bands_witness :
    (last_yield [⟨0, (11 : ℚ) / 2⟩] = some ((11 : ℚ) / 2)) ∧
    alertBlock [⟨0, (11 : ℚ) / 2⟩] = [Msg.warning alertWarnText] :=
  ⟨rfl, ((historical_threshold_bands [⟨0, (11 : ℚ) / 2⟩] ((11 : ℚ) / 2) rfl).1).mpr
    (by norm_num)⟩

/-! ## Claim C6 -/

/-- C6: when either live value is absent the guidance block emits
exactly the static fallback warning plus one raw error text and nothing
else (it cannot raise: it is a total function into message lists); and
for every input the output is either exactly that two-message fallback
or the full success list - never a partial mixture. -/
theorem guidance_absent_fallback (fw : List ℚ) (a b : Option ℚ)
    (hab : a = none ∨ b = none) :
    (∃ e, guidanceBlock fw (some (a, b)) =
      [Msg.warning guidanceFallbackText, Msg.captionText e]) ∧
    (∀ live : Option (Option ℚ × Option ℚ),
      (∃ e, guidanceBlock fw live =
        [Msg.warning guidanceFallbackText, Msg.captionText e]) ∨
      (∃ fy ay mr, fw.getLast? = some fy ∧ live = some (some ay, some mr) ∧
        guidanceBlock fw live = successMsgs fy ay mr)) := by
  constructor
  · cases hfw : fw.getLast? with
    | none => exact ⟨indexErrText, by simp [guidanceBlock, hfw, fallbackMsgs]⟩
    | some fy =>
      refine ⟨noneSubErrText, ?_⟩
      rcases hab with rfl | rfl
      · cases b <;> simp [guidanceBlock, hfw, fallbackMsgs]
      · cases a <;> simp [guidanceBlock, hfw, fallbackMsgs]
  · intro live
    cases hfw : fw.getLast? with
    | none => exact Or.inl ⟨indexErrText, by simp [guidanceBlock, hfw, fallbackMsgs]⟩
    | some fy =>
      cases live with
      | none => exact Or.inl ⟨unpackErrText, by simp [guidanceBlock, hfw, fallbackMsgs]⟩
      | some pair =>
        obtain ⟨x, y⟩ := pair
        cases x with
        | none =>
          exact Or.inl ⟨noneSubErrText, by cases y <;> simp [guidanceBlock, hfw, fallbackMsgs]⟩
        | some ay =>
          cases y with
          | none => exact Or.inl ⟨noneSubErrText, by simp [guidanceBlock, hfw, fallbackMsgs]⟩
          | some mr => exact Or.inr ⟨fy, ay, mr, rfl, rfl, by simp [guidanceBlock, hfw]⟩

/-- Witness for C6: the current yield absent, the mortgage rate present. -/
theorem guidance_absent_fallback_witness :
    ((none : Option ℚ) = none ∨ (some (7 : ℚ)) = none) ∧
    (∃ e, guidanceBlock [6] (some (none, some 7)) =
      [Msg.warning guidanceFallbackText, Msg.captionText e]) :=
  ⟨Or.inl rfl, (guidance_absent_fallback [6] none (some 7) (Or.inl rfl)).1⟩

/-! ## Claim C7 -/

/-- C7: `get_30yr_mortgage_rate` never raises (it is total into
`Option ℚ`) and returns `none` on an HTTP error, a missing label span, a
missing adjacent span, or an unparsable text; when the adjacent text
parses it returns that text stripped of whitespace and percent signs as
a float; sample evaluations: text " 6.92% " yields 6.92, text "N/A"
yields `none`. -/
theorem mortgage_rate_scrape_total (o : FetchOutcome) :
    get_30yr_mortgage_rate o =
      (match o with
       | .httpError _ => none
       | .page none => none
       | .page (some none) => none
       | .page (some (some txt)) => parseFloat (removePercent (stripChars txt))) ∧
    get_30yr_mortgage_rate
      (FetchOutcome.page (some (some [' ', '6', '.', '9', '2', '%', ' ']))) =
      some ((692 : ℚ) / 100) ∧
    get_30yr_mortgage_rate (FetchOutcome.page (some (some ['N', '/', 'A']))) = none := by
  refine ⟨?_, ?_, rfl⟩
  · cases o with
    | httpError e => rfl
    | page l =>
      cases l with
      | none => rfl
      | some adj =>
        cases adj with
        | none => rfl
        | some txt =>
          show get_30yr_mortgage_rate _ = parseFloat (removePercent (stripChars txt))
          rw [get_30yr_mortgage_rate, scrapeBody]
          cases parseFloat (removePercent (stripChars txt)) <;> rfl
  · have h1 : get_30yr_mortgage_rate
        (FetchOutcome.page (some (some [' ', '6', '.', '9', '2', '%', ' ']))) =
        some (((692 : ℕ) : ℚ) / 10 ^ 2) := rfl
    rw [h1]
    norm_num

/-! ## Claim C8 -/

/-- C8: for every dataset, date range and header line, the CSV export of
the rows kept by the inclusive date-range filter, when re-parsed,
reproduces exactly that filtered subset in the same order; and a row is
kept by the filter exactly when its date lies in the range, inclusive on
both ends. -/
theorem csv_filter_roundtrip (header : List Char) (hh : '\x0a' ∉ header)
    (rows : List CsvRow) (lo hi : ℕ) :
    parseCsv (toCsv header (filterRows rows lo hi)) = some (filterRows rows lo hi) ∧
    (∀ r : CsvRow, r ∈ filterRows rows lo hi ↔ r ∈ rows ∧ lo ≤ r.date ∧ r.date ≤ hi) := by
  refine ⟨parseCsv_toCsv header hh _, ?_⟩
  intro r
  simp [filterRows, List.mem_filter]

/-- Witness for C8 on a concrete three-row dataset, keeping dates 1-2. -/
theorem csv_filter_roundtrip_witness :
    ('\x0a' ∉ ['D', 'a', 't', 'e', ',', 'Y']) ∧
    parseCsv (toCsv ['D', 'a', 't', 'e', ',', 'Y']
        (filterRows [⟨1, [45]⟩, ⟨2, [-50]⟩, ⟨3, [55]⟩] 1 2)) =
      some (filterRows [⟨1, [45]⟩, ⟨2, [-50]⟩, ⟨3, [55]⟩] 1 2) :=
  ⟨by decide, (csv_filter_roundtrip ['D', 'a', 't', 'e', ',', 'Y'] (by decide)
    [⟨1, [45]⟩, ⟨2, [-50]⟩, ⟨3, [55]⟩] 1 2).1⟩

/-! ## Claim C9 -/

/-- C9: for every successful (non-empty) history fetch, `get_live_rates`
returns the single bare `None` rather than a pair, and the guidance
block's tuple unpacking of that result then raises, collapsing the block
to the fallback pair carrying the unpacking error. -/
theorem get_live_rates_none_unpack_raises (closes : List ℚ) (hne : closes ≠ [])
    (fw : List ℚ) (fy : ℚ) (hfw : fw.getLast? = some fy) :
    get_live_rates (Except.ok closes) = none ∧
    guidanceBlock fw (get_live_rates (Except.ok closes)) = fallbackMsgs unpackErrText := by
  have h1 : get_live_rates (Except.ok closes) = none := by
    rw [get_live_rates]
    cases hc : closes.getLast? with
    | none => exact absurd (List.getLast?_eq_none_iff.mp hc) hne
    | some y => rfl
  refine ⟨h1, ?_⟩
  rw [h1]
  simp [guidanceBlock, hfw]

/-- Witness for C9 at a concrete successful fetch. -/
theorem get_live_rates_none_unpack_raises_witness :
    (([(9 : ℚ) / 2] : List ℚ) ≠ []) ∧
    (([6] : List ℚ).getLast? = some 6) ∧
    get_live_rates (Except.ok [(9 : ℚ) / 2]) = none ∧
    guidanceBlock [6] (get_live_rates (Except.ok [(9 : ℚ) / 2])) =
      fallbackMsgs unpackErrText :=
  ⟨List.cons_ne_nil _ _, rfl,
    get_live_rates_none_unpack_raises [(9 : ℚ) / 2] (List.cons_ne_nil _ _) [6] 6 rfl⟩

/-! ## Claim C10 -/

/-- C10: two runs differing only in the scraped mortgage-rates page
content display identical dashboard output - the scrape outcome feeds no
executed code path, so the page content never influences any guidance
message. -/
theorem scraped_page_noninterference (data : List DataRow) (lo hi : ℤ)
    (live : Option (Option ℚ × Option ℚ)) (p p' : FetchOutcome) :
    dashboard data lo hi live p = dashboard data lo hi live p' := rfl

end MortgageDashboard
